import Mathlib

/-!
Verification of the `bp` in-memory filesystem (`bp/memory.py`), the generic
path algorithms (`bp/generic.py`) and the read-only decorator
(`bp/readonly.py`) against their natural-language specification.

The embedding is shallow: a location is a list of path segments, the store
state (`MemoryFS`) carries the content map, directory set, ownership map and
link map as association lists, and every mutating operation is written in
state-passing style, returning `Except Err` where the Python raises.
All paths in the claims live on a single store, so a path value is
represented by its location alone.
-/

deriving instance DecidableEq for Except

namespace BP

/-- A location: the ordered sequence of path segments from the root.
Mirrors the `_path` tuple of `MemoryPath`. -/
abbrev Loc := List String

/-- A byte blob, as a list of byte values. -/
abbrev Bytes := List Nat

/-- Association-list lookup keyed by location; mirrors Python `dict`
lookup (`store[key]` / `.get`). -/
def alistGet {β : Type} (k : Loc) : List (Loc × β) → Option β
  | [] => none
  | (k', v) :: rest => if k = k' then some v else alistGet k rest

/-- Association-list write keyed by location; mirrors `store[key] = v`
(replace if present, append otherwise). -/
def alistSet {β : Type} (k : Loc) (v : β) : List (Loc × β) → List (Loc × β)
  | [] => [(k, v)]
  | (k', v') :: rest =>
      if k = k' then (k, v) :: rest else (k', v') :: alistSet k v rest

/-- Association-list delete keyed by location; mirrors `del store[key]`. -/
def alistDel {β : Type} (k : Loc) : List (Loc × β) → List (Loc × β)
  | [] => []
  | (k', v') :: rest =>
      if k = k' then rest else (k', v') :: alistDel k rest

/-- Set-style insertion into the directory list; mirrors `set.add`
(idempotent). -/
def listInsert (x : Loc) (xs : List Loc) : List Loc :=
  if x ∈ xs then xs else x :: xs

/-- Error kinds surfaced by the operations (`PathError`, `UnlistableError`,
plain `Exception` in the source). -/
inductive Err where
  | alreadyExists (loc : Loc)
  | notFound (loc : Loc)
  | notListable
  | isADirectory
  | writeDenied
deriving DecidableEq, Repr

/-- The mutable backing state of `MemoryFS`: content map `_store`,
directory set `_dirs`, ownership map `_uids` and symlink table `_links`.
On a single store a path value is determined by its location, so `_links`
is keyed by locations here. -/
structure MemoryFS where
  store : List (Loc × Bytes)
  dirs : List Loc
  uids : List (Loc × Nat)
  links : List (Loc × Loc)
deriving DecidableEq, Repr

/-- `MemoryFS.__init__`: all four tables start empty. -/
def MemoryFS.fresh : MemoryFS := ⟨[], [], [], []⟩

/-- An open file handle (`MemoryFile`): a buffer bound to a store key.
The store reference is implicit in the state-passing style. -/
structure MemoryFile where
  key : Loc
  buf : Bytes
deriving DecidableEq, Repr

/-- `MemoryFile.close`: writes the buffer to the content map under the
bound key. -/
def MemoryFile.close (f : MemoryFile) (fs : MemoryFS) : MemoryFS :=
  { fs with store := alistSet f.key f.buf fs.store }

/-- `MemoryFS.create`: fails if the location is a directory or already has
content; otherwise returns a fresh empty handle. Note that the store is
not modified: the location is only occupied once the handle is closed. -/
def MemoryFS.create (fs : MemoryFS) (path : Loc) : Except Err MemoryFile :=
  if path ∈ fs.dirs ∨ (alistGet path fs.store).isSome then
    .error (.alreadyExists path)
  else
    .ok ⟨path, []⟩

/-- `MemoryFS.open`: directories cannot be opened; existing content seeds
the handle's buffer; otherwise the buffer starts empty. -/
def MemoryFS.openFS (fs : MemoryFS) (path : Loc) : Except Err MemoryFile :=
  if path ∈ fs.dirs then
    .error .isADirectory
  else
    match alistGet path fs.store with
    | some content => .ok ⟨path, content⟩
    | none => .ok ⟨path, []⟩

/-- `format_memory_path`: joins `("/mem",) + path` with the separator. -/
def format_memory_path (path : Loc) (sep : String) : String :=
  String.intercalate sep ("/mem" :: path)

namespace MemoryPath

/-- `MemoryPath.sep`. -/
def sep : String := "/"

/-- `MemoryPath.path`: the display path string. -/
def path (p : Loc) : String := format_memory_path p sep

/-- `MemoryPath.parent`: root self-parents; otherwise drop the last
segment. -/
def parent (p : Loc) : Loc := if p = [] then p else p.dropLast

/-- `MemoryPath.child`: append one segment; no existence check. -/
def child (p : Loc) (name : String) : Loc := p ++ [name]

/-- `MemoryPath.descendant`: append a segment sequence. -/
def descendant (p : Loc) (segments : List String) : Loc := p ++ segments

/-- `MemoryPath.isdir`: membership in the directory set. -/
def isdir (p : Loc) (fs : MemoryFS) : Bool := p ∈ fs.dirs

/-- `MemoryPath.isfile`: membership in the content map's key set. -/
def isfile (p : Loc) (fs : MemoryFS) : Bool := (alistGet p fs.store).isSome

/-- `MemoryPath.islink`: membership in the link map's key set. -/
def islink (p : Loc) (fs : MemoryFS) : Bool := (alistGet p fs.links).isSome

/-- `MemoryPath.exists`: directory or file. -/
def pexists (p : Loc) (fs : MemoryFS) : Bool := isdir p fs || isfile p fs

/-- `MemoryPath.listdir`: fails with `UnlistableError` unless a directory;
otherwise scans `chain(_dirs, _store.keys())` for direct children and
returns their final segments. -/
def listdir (p : Loc) (fs : MemoryFS) : Except Err (List String) :=
  if p ∈ fs.dirs then
    let i := fs.dirs ++ fs.store.map Prod.fst
    let l := p.length + 1
    .ok ((i.filter (fun t => t.dropLast == p && t.length == l)).map
      (fun t => t.getLastD ""))
  else
    .error .notListable

/-- `MemoryPath.create`: delegates to the store. -/
def create (p : Loc) (fs : MemoryFS) : Except Err MemoryFile :=
  MemoryFS.create fs p

/-- `MemoryPath.open`: delegates to the store, ignoring the mode
argument entirely (the source reads `return self._fs.open(self._path)`). -/
def openPath (mode : String) (p : Loc) (fs : MemoryFS) : Except Err MemoryFile :=
  MemoryFS.openFS fs p

/-- `MemoryPath.createDirectory`: fails if the location has content;
otherwise adds it to the directory set. -/
def createDirectory (p : Loc) (fs : MemoryFS) : Except Err MemoryFS :=
  if (alistGet p fs.store).isSome then
    .error (.alreadyExists p)
  else
    .ok { fs with dirs := listInsert p fs.dirs }

/-- `MemoryPath.getContent`: the stored blob, or `ENOENT`. -/
def getContent (p : Loc) (fs : MemoryFS) : Except Err Bytes :=
  match alistGet p fs.store with
  | some content => .ok content
  | none => .error (.notFound p)

/-- `MemoryPath.setContent`: unconditionally overwrites the content map
entry; no directory check. -/
def setContent (p : Loc) (content : Bytes) (fs : MemoryFS) : MemoryFS :=
  { fs with store := alistSet p content fs.store }

end MemoryPath

/-- `genericParents` (`bp/generic.py`): ancestors from the immediate
parent down to the root, which self-parents. -/
def genericParents (p : Loc) : List Loc :=
  let par := MemoryPath.parent p
  if h : p = par then [] else par :: genericParents par
termination_by p.length
decreasing_by
  have hne : p ≠ [] := by
    intro hnil
    apply h
    show p = MemoryPath.parent p
    simp [MemoryPath.parent, hnil]
  show (MemoryPath.parent p).length < p.length
  simp only [MemoryPath.parent, if_neg hne]
  have hpos : 0 < p.length := List.length_pos.mpr hne
  rw [List.length_dropLast]
  omega

/-- The recursion of `MemoryPath.remove`, driven by explicit fuel (the
source recurses through the directory tree; any fuel larger than the
longest location in the store suffices). A directory first removes, in
order, the children listed from the current state (`for child in
self.children(): child.remove()`), then its own marker; a non-directory
deletes its content entry or fails with `ENOENT`. -/
def removeFuel : Nat → Loc → MemoryFS → Except Err MemoryFS
  | 0, p, _ => .error (.notFound p)
  | fuel + 1, p, fs =>
    if p ∈ fs.dirs then
      match MemoryPath.listdir p fs with
      | .error e => .error e
      | .ok names =>
        match (names.map (fun n => MemoryPath.child p n)).foldlM
            (fun s c => removeFuel fuel c s) fs with
        | .error e => .error e
        | .ok fs2 => .ok { fs2 with dirs := fs2.dirs.erase p }
    else
      match alistGet p fs.store with
      | some _ => .ok { fs with store := alistDel p fs.store }
      | none => .error (.notFound p)

/-- The longest location present in the directory set or content map. -/
def MemoryFS.maxLocLen (fs : MemoryFS) : Nat :=
  ((fs.dirs ++ fs.store.map Prod.fst).map List.length).foldr max 0

/-- `MemoryPath.remove`, with fuel adequate for the current state: the
recursion descends one segment per level and only into listed children,
so the depth is bounded by the longest location. -/
def MemoryPath.remove (p : Loc) (fs : MemoryFS) : Except Err MemoryFS :=
  removeFuel (fs.maxLocLen + 1) p fs

namespace MemoryPath

/-- `MemoryPath.realpath`: `self._fs._links.get(self, self).path`. -/
def realpath (p : Loc) (fs : MemoryFS) : String :=
  path ((alistGet p fs.links).getD p)

/-- `MemoryPath.linkTo`: `self._fs._links[linkFilePath] = self` — the
argument is the key, `self` the value. -/
def linkTo (p : Loc) (linkFilePath : Loc) (fs : MemoryFS) : MemoryFS :=
  { fs with links := alistSet linkFilePath p fs.links }

end MemoryPath

/-- `ReadOnlyPath` (`bp/readonly.py`): wraps a path value. -/
structure ReadOnlyPath where
  fp : Loc
deriving DecidableEq, Repr

/-- `ReadOnlyPath.getContent`: delegates to the wrapped path. -/
def ReadOnlyPath.getContent (r : ReadOnlyPath) (fs : MemoryFS) : Except Err Bytes :=
  MemoryPath.getContent r.fp fs

/-- `ReadOnlyPath.setContent`: raises without touching the wrapped
backend; the state is returned only on success, so the error carries no
modified state. -/
def ReadOnlyPath.setContent (r : ReadOnlyPath) (content : Bytes) (fs : MemoryFS) :
    Except Err MemoryFS :=
  .error .writeDenied

/-- The file/directory exclusivity invariant of the spec: no location is
simultaneously a content-map key and a directory-set member. -/
def MemoryFS.separated (fs : MemoryFS) : Prop :=
  ∀ loc : Loc, ¬ ((alistGet loc fs.store).isSome = true ∧ loc ∈ fs.dirs)

/-- The state reached from a fresh store by `createDirectory` at `["a"]`,
then hit by `setContent` at the same location. -/
def fsDirA : MemoryFS := ⟨[], [["a"]], [], []⟩

/-- The store obtained from a fresh `MemoryFS` by `setContent` at
`root/foo` and then at `root/bar/baz` — the scenario of the recursive
removal property and of the repo's `test_removeDirectory`. -/
def fs2c : MemoryFS :=
  MemoryPath.setContent ["bar", "baz"] [66]
    (MemoryPath.setContent ["foo"] [72] MemoryFS.fresh)

/-- `fs2c` with the root location additionally marked as a directory, as
the repository's test harness does before running the removal test. -/
def fs2primed : MemoryFS := { fs2c with dirs := [[]] }

/- ### Helper lemmas -/

theorem alistGet_alistSet_self {β : Type} (k : Loc) (v : β) (l : List (Loc × β)) :
    alistGet k (alistSet k v l) = some v := by
  induction l with
  | nil => simp [alistGet, alistSet]
  | cons hd tl ih =>
    obtain ⟨k', v'⟩ := hd
    by_cases hk : k = k'
    · simp [alistGet, alistSet, hk]
    · simp [alistGet, alistSet, hk, ih]

theorem mem_listInsert_self (x : Loc) (xs : List Loc) : x ∈ listInsert x xs := by
  unfold listInsert
  split
  · assumption
  · exact List.mem_cons_self x xs

theorem listInsert_idem (x : Loc) (xs : List Loc) :
    listInsert x (listInsert x xs) = listInsert x xs := by
  show (if x ∈ listInsert x xs then listInsert x xs else x :: listInsert x xs) =
    listInsert x xs
  rw [if_pos (mem_listInsert_self x xs)]

theorem mem_of_mem_listInsert (x y : Loc) (xs : List Loc)
    (h : y ∈ listInsert x xs) : y = x ∨ y ∈ xs := by
  unfold listInsert at h
  split at h
  · exact Or.inr h
  · rcases List.mem_cons.mp h with h1 | h1
    · exact Or.inl h1
    · exact Or.inr h1

theorem createDirectory_ok (fs fs' : MemoryFS) (L : Loc)
    (h : MemoryPath.createDirectory L fs = .ok fs') :
    (alistGet L fs.store).isSome = false ∧
    fs' = { fs with dirs := listInsert L fs.dirs } := by
  unfold MemoryPath.createDirectory at h
  split at h
  · exact absurd h (by simp)
  · refine ⟨by simp_all, ?_⟩
    injection h with h2
    exact h2.symm

theorem genericParents_nil : genericParents [] = [] := by
  rw [genericParents]
  simp [MemoryPath.parent]

theorem genericParents_append (p : Loc) (x : String) :
    genericParents (p ++ [x]) = p :: genericParents p := by
  have hpar : MemoryPath.parent (p ++ [x]) = p := by
    unfold MemoryPath.parent
    rw [if_neg (by simp), List.dropLast_concat]
  rw [genericParents]
  simp only [hpar]
  rw [dif_neg (by simp)]

theorem genericParents_eq_take (p : Loc) :
    genericParents p = ((List.range p.length).map (fun k => p.take k)).reverse := by
  induction p using List.reverseRecOn with
  | nil => simp [genericParents_nil]
  | append_singleton q x ih =>
    have hmap : (List.range q.length).map (fun k => (q ++ [x]).take k) =
        (List.range q.length).map (fun k => q.take k) := by
      apply List.map_congr_left
      intro k hk
      rw [List.mem_range] at hk
      exact List.take_append_of_le_length (by omega)
    rw [genericParents_append, ih, List.length_append]
    simp only [List.length_singleton]
    rw [List.range_succ, List.map_append, List.reverse_append, hmap]
    simp [List.take_left]

/- ### Claims -/

/-- Claim C1, counterexample: the content/directory exclusivity invariant is
not maintained by every public operation. From a fresh store,
`createDirectory` at `["a"]` succeeds, and a subsequent `setContent` at
`["a"]` (which performs no directory check) leaves `["a"]` both a
content-map key and a directory-set member. -/
theorem C1_counterexample :
    MemoryPath.createDirectory ["a"] MemoryFS.fresh = .ok fsDirA ∧
    ¬ MemoryFS.separated (MemoryPath.setContent ["a"] [104] fsDirA) :=
  ⟨by decide, fun h => h ["a"] ⟨by decide, by decide⟩⟩

/-- Claim C1, amended: `createDirectory` (unlike `setContent` and handle
close) does preserve the exclusivity invariant — it fails whenever the
location already has content, so a successful call only adds a
content-free location to the directory set. -/
theorem C1_createDirectory_separated (fs fs' : MemoryFS) (L : Loc)
    (hsep : MemoryFS.separated fs)
    (h : MemoryPath.createDirectory L fs = .ok fs') :
    MemoryFS.separated fs' := by
  obtain ⟨hns, rfl⟩ := createDirectory_ok fs fs' L h
  intro loc hloc
  obtain ⟨h1, h2⟩ := hloc
  rcases mem_of_mem_listInsert L loc fs.dirs h2 with rfl | hmem
  · have h1' : (alistGet loc fs.store).isSome = true := h1
    rw [hns] at h1'
    exact absurd h1' (by decide)
  · exact hsep loc ⟨h1, hmem⟩

/-- Witness for the amended C1 claim at a concrete input. -/
theorem C1_createDirectory_separated_witness :
    MemoryFS.separated fsDirA :=
  C1_createDirectory_separated MemoryFS.fresh fsDirA ["a"]
    (fun loc h => by simp [MemoryFS.fresh, alistGet] at h)
    (by decide)

/-- Claim C2, code bug: starting from a fresh store, after `setContent` at
`root/foo` and `root/bar/baz`, `remove()` on the root does not succeed — it
fails with `NotFound` (the root is not in the directory set) and both
files remain. Even when the root is primed as a directory exactly as the
repository's own test harness does, the removal succeeds but leaves
`root/bar/baz` in the store (its parent `("bar",)` is neither a directory
nor a file, so it is never listed as a child), contradicting
`test_removeDirectory`'s assertion that `baz.exists()` becomes false. -/
theorem C2_remove_root :
    (MemoryPath.remove [] fs2c = .error (.notFound []) ∧
     MemoryPath.pexists ["foo"] fs2c = true ∧
     MemoryPath.pexists ["bar", "baz"] fs2c = true) ∧
    (MemoryPath.remove [] fs2primed =
       .ok ⟨[(["bar", "baz"], [66])], [], [], []⟩ ∧
     MemoryPath.pexists [] (⟨[(["bar", "baz"], [66])], [], [], []⟩ : MemoryFS) = false ∧
     MemoryPath.pexists ["foo"] (⟨[(["bar", "baz"], [66])], [], [], []⟩ : MemoryFS) = false ∧
     MemoryPath.pexists ["bar", "baz"]
       (⟨[(["bar", "baz"], [66])], [], [], []⟩ : MemoryFS) = true) := by decide

/-- Claim C3, counterexample: on a freshly created store the root is not a
directory — `isdir()` and `exists()` on the root both return false,
because `isdir` is plain membership of the empty location in the (empty)
directory set. -/
theorem C3_counterexample :
    MemoryPath.isdir [] MemoryFS.fresh = false ∧
    MemoryPath.pexists [] MemoryFS.fresh = false := by decide

/-- Claim C3, amended: the root is a directory exactly when the empty
location is a member of the directory set; in particular on a fresh store
`isdir()` and `exists()` on the root are false. -/
theorem C3_root_isdir (fs : MemoryFS) :
    (MemoryPath.isdir [] fs = true ↔ ([] : Loc) ∈ fs.dirs) ∧
    MemoryPath.isdir [] MemoryFS.fresh = false ∧
    MemoryPath.pexists [] MemoryFS.fresh = false :=
  ⟨by simp [MemoryPath.isdir], by decide, by decide⟩

/-- Claim C4, counterexample: `create` does not itself occupy the
location — it only returns a handle, and the store is untouched until the
handle is closed. Hence after a first `create` at `["a"]` on a fresh
store (no close), a second `create` at `["a"]` still succeeds instead of
failing with `AlreadyExists`. -/
theorem C4_counterexample :
    MemoryPath.create ["a"] MemoryFS.fresh = .ok ⟨["a"], []⟩ ∧
    MemoryPath.create ["a"] MemoryFS.fresh ≠ .error (.alreadyExists ["a"]) := by
  decide

/-- Claim C4, amended: `create` at L followed by closing the returned
handle (which writes the buffer into the content map) makes a subsequent
`create` at L fail with `AlreadyExists`. -/
theorem C4_create_close_create (fs : MemoryFS) (L : Loc) (f : MemoryFile)
    (h : MemoryPath.create L fs = .ok f) :
    MemoryPath.create L (MemoryFile.close f fs) = .error (.alreadyExists L) := by
  unfold MemoryPath.create MemoryFS.create at h ⊢
  split at h
  · exact absurd h (by simp)
  · injection h with h2
    subst h2
    have hmem : (alistGet L (MemoryFile.close ⟨L, []⟩ fs).store).isSome = true := by
      simp [MemoryFile.close, alistGet_alistSet_self]
    rw [if_pos (Or.inr hmem)]

/-- Witness for the amended C4 claim at a concrete input. -/
theorem C4_create_close_create_witness :
    MemoryPath.create ["a"] (MemoryFile.close ⟨["a"], []⟩ MemoryFS.fresh) =
      .error (.alreadyExists ["a"]) :=
  C4_create_close_create MemoryFS.fresh ["a"] ⟨["a"], []⟩ (by decide)

/-- Claim C5: on a read-only wrapper of a path whose location has content
X, `getContent` returns X, `setContent` fails with the write-denied error
without producing any new state, and the wrapped path still reads X
afterwards. -/
theorem C5_readonly (r : ReadOnlyPath) (fs : MemoryFS) (X b : Bytes)
    (h : MemoryPath.getContent r.fp fs = .ok X) :
    ReadOnlyPath.getContent r fs = .ok X ∧
    ReadOnlyPath.setContent r b fs = .error .writeDenied ∧
    MemoryPath.getContent r.fp fs = .ok X :=
  ⟨h, rfl, h⟩

/-- Witness for C5 at a concrete input. -/
theorem C5_readonly_witness :
    ReadOnlyPath.getContent ⟨["a"]⟩
      (MemoryPath.setContent ["a"] [88] MemoryFS.fresh) = .ok [88] ∧
    ReadOnlyPath.setContent ⟨["a"]⟩ [1]
      (MemoryPath.setContent ["a"] [88] MemoryFS.fresh) = .error .writeDenied ∧
    MemoryPath.getContent ["a"]
      (MemoryPath.setContent ["a"] [88] MemoryFS.fresh) = .ok [88] :=
  C5_readonly ⟨["a"]⟩ (MemoryPath.setContent ["a"] [88] MemoryFS.fresh) [88] [1]
    (by decide)

/-- Claim C6: after `a.linkTo(b)` the link map maps `b` to `a`, so
`b.islink()` is true, `b.realpath()` is `a`'s display path, and any path
that is not a key of the link map resolves to its own display path. -/
theorem C6_linkTo_realpath (fs : MemoryFS) (a b : Loc) :
    MemoryPath.islink b (MemoryPath.linkTo a b fs) = true ∧
    MemoryPath.realpath b (MemoryPath.linkTo a b fs) = MemoryPath.path a ∧
    (∀ p : Loc, alistGet p (MemoryPath.linkTo a b fs).links = none →
      MemoryPath.realpath p (MemoryPath.linkTo a b fs) = MemoryPath.path p) := by
  refine ⟨?_, ?_, ?_⟩
  · simp [MemoryPath.islink, MemoryPath.linkTo, alistGet_alistSet_self]
  · simp [MemoryPath.realpath, MemoryPath.linkTo, alistGet_alistSet_self]
  · intro p hp
    unfold MemoryPath.realpath
    rw [hp, Option.getD_none]

/-- Witness for C6 at a concrete input. -/
theorem C6_linkTo_realpath_witness :
    MemoryPath.realpath ["q"] (MemoryPath.linkTo ["t"] ["l"] MemoryFS.fresh) =
      MemoryPath.path ["q"] :=
  (C6_linkTo_realpath MemoryFS.fresh ["t"] ["l"]).2.2 ["q"] (by decide)

/-- Claim C7: `setContent` then `getContent` at the same location returns
exactly the bytes written, for every prior store state and every content,
including the empty blob. -/
theorem C7_roundtrip (fs : MemoryFS) (p : Loc) (content : Bytes) :
    MemoryPath.getContent p (MemoryPath.setContent p content fs) = .ok content := by
  simp [MemoryPath.getContent, MemoryPath.setContent, alistGet_alistSet_self]

/-- Claim C8: `createDirectory` fails with `AlreadyExists` when the
location has content; otherwise it succeeds, and a second call on the
resulting state succeeds with the state unchanged, leaving the location a
directory (idempotence). -/
theorem C8_createDirectory_idem (fs fs' : MemoryFS) (L : Loc) :
    ((alistGet L fs.store).isSome = true →
      MemoryPath.createDirectory L fs = .error (.alreadyExists L)) ∧
    (MemoryPath.createDirectory L fs = .ok fs' →
      MemoryPath.createDirectory L fs' = .ok fs' ∧
      MemoryPath.isdir L fs' = true) := by
  constructor
  · intro h
    unfold MemoryPath.createDirectory
    rw [if_pos h]
  · intro h
    obtain ⟨hns, rfl⟩ := createDirectory_ok fs fs' L h
    constructor
    · unfold MemoryPath.createDirectory
      rw [if_neg (by simp [hns])]
      simp [listInsert_idem]
    · simp [MemoryPath.isdir, mem_listInsert_self]

/-- Witness for C8 at concrete inputs: both the failing branch and the
idempotent branch. -/
theorem C8_createDirectory_idem_witness :
    MemoryPath.createDirectory ["a"]
      (MemoryPath.setContent ["a"] [7] MemoryFS.fresh) =
      .error (.alreadyExists ["a"]) ∧
    (MemoryPath.createDirectory ["a"] fsDirA = .ok fsDirA ∧
     MemoryPath.isdir ["a"] fsDirA = true) :=
  ⟨(C8_createDirectory_idem (MemoryPath.setContent ["a"] [7] MemoryFS.fresh)
      MemoryFS.fresh ["a"]).1 (by decide),
   (C8_createDirectory_idem MemoryFS.fresh fsDirA ["a"]).2 (by decide)⟩

/-- Claim C9: `ancestors` (=`genericParents`) yields, for every path, the
proper prefixes of its location from the immediate parent down to the
root, and on `child(child(root,"a"),"b")` yields exactly
`[child(root,"a"), root]`. -/
theorem C9_ancestors :
    (∀ p : Loc, genericParents p =
      ((List.range p.length).map (fun k => p.take k)).reverse) ∧
    genericParents (MemoryPath.child (MemoryPath.child [] "a") "b") =
      [MemoryPath.child [] "a", []] := by
  refine ⟨genericParents_eq_take, ?_⟩
  have h2 : genericParents (["a"] ++ ["b"]) = ["a"] :: genericParents ["a"] :=
    genericParents_append ["a"] "b"
  have h1 : genericParents (([] : Loc) ++ ["a"]) = [] :: genericParents [] :=
    genericParents_append [] "a"
  show genericParents (["a"] ++ ["b"]) = [["a"], []]
  rw [h2, show genericParents ["a"] = ([] : Loc) :: genericParents [] from h1,
    genericParents_nil]

/-- Claim C10: `MemoryPath.open` ignores its mode argument; on a location
that is neither a directory nor a file, `open` succeeds for every mode
(including "r") with an empty handle, and closing that handle writes the
empty buffer into the content map, making the location a file with empty
content. -/
theorem C10_open_ignores_mode (fs : MemoryFS) (L : Loc) :
    (∀ m1 m2 : String, MemoryPath.openPath m1 L fs = MemoryPath.openPath m2 L fs) ∧
    (MemoryPath.isdir L fs = false → MemoryPath.isfile L fs = false →
      ∀ mode : String,
        MemoryPath.openPath mode L fs = .ok ⟨L, []⟩ ∧
        MemoryPath.isfile L (MemoryFile.close ⟨L, []⟩ fs) = true ∧
        MemoryPath.getContent L (MemoryFile.close ⟨L, []⟩ fs) = .ok []) := by
  constructor
  · intro m1 m2
    rfl
  · intro hd hf mode
    have hd' : L ∉ fs.dirs := by simpa [MemoryPath.isdir] using hd
    have hf' : alistGet L fs.store = none := by
      have hff : (alistGet L fs.store).isSome = false := hf
      cases halist : alistGet L fs.store with
      | none => rfl
      | some v =>
        rw [halist] at hff
        simp at hff
    refine ⟨?_, ?_, ?_⟩
    · unfold MemoryPath.openPath MemoryFS.openFS
      rw [if_neg hd', hf']
    · simp [MemoryPath.isfile, MemoryFile.close, alistGet_alistSet_self]
    · simp [MemoryPath.getContent, MemoryFile.close, alistGet_alistSet_self]

/-- Witness for C10 at a concrete input, with the pure read mode "r". -/
theorem C10_open_ignores_mode_witness :
    MemoryPath.openPath "r" ["a"] MemoryFS.fresh = .ok ⟨["a"], []⟩ ∧
    MemoryPath.isfile ["a"] (MemoryFile.close ⟨["a"], []⟩ MemoryFS.fresh) = true ∧
    MemoryPath.getContent ["a"] (MemoryFile.close ⟨["a"], []⟩ MemoryFS.fresh) =
      .ok [] :=
  (C10_open_ignores_mode MemoryFS.fresh ["a"]).2 (by decide) (by decide) "r"

end BP
